import Mathlib

/-!
# VaultDrop — verification of the spec against the source

Shallow embedding of the VaultDrop document pipeline: the HMAC signed-URL
issuer (`signing` package), the document repository (`repository` package),
the extraction worker (`worker` package), and the upload intake path
(`api` package).  External capabilities that live outside the repository
(the SHA-256 primitive of Go's standard library, the object store, content
sniffing, PDF extraction) are modelled concretely or taken as parameters,
as noted at each definition.
-/

namespace VaultDrop

/-! ## Bytes and strings

Go converts strings to `[]byte` via UTF-8.  We model bytes as `Nat` values
below 256 and strings through their UTF-8 encoding. -/

/-- UTF-8 encoding of a single character as a list of byte values
(standard UTF-8, as produced by Go's `[]byte(s)` conversion). -/
def utf8Char (c : Char) : List Nat :=
  let n := c.toNat
  if n < 128 then [n]
  else if n < 2048 then [192 + n / 64, 128 + n % 64]
  else if n < 65536 then [224 + n / 4096, 128 + (n / 64) % 64, 128 + n % 64]
  else [240 + n / 262144, 128 + (n / 4096) % 64, 128 + (n / 64) % 64, 128 + n % 64]

/-- UTF-8 bytes of a string, matching Go's `[]byte(s)`. -/
def strBytes (s : String) : List Nat := (s.data.map utf8Char).flatten

/-! ## SHA-256 and HMAC (Go standard library `crypto/sha256`, `crypto/hmac`)

The Go source calls `hmac.New(sha256.New, secret)`.  These primitives are
not part of the repository; they are modelled here concretely, following
FIPS 180-4, so that the signing functions are fully executable. -/

/-- Truncation to a 32-bit word. -/
def w32 (n : Nat) : Nat := n % 4294967296

/-- 32-bit rotate right. -/
def rotr32 (x n : Nat) : Nat := w32 ((x >>> n) ||| (x <<< (32 - n)))

def shaCh (x y z : Nat) : Nat := (x &&& y) ^^^ ((x ^^^ 4294967295) &&& z)

def shaMaj (x y z : Nat) : Nat := (x &&& y) ^^^ (x &&& z) ^^^ (y &&& z)

def bigSigma0 (x : Nat) : Nat := rotr32 x 2 ^^^ rotr32 x 13 ^^^ rotr32 x 22

def bigSigma1 (x : Nat) : Nat := rotr32 x 6 ^^^ rotr32 x 11 ^^^ rotr32 x 25

def smallSigma0 (x : Nat) : Nat := rotr32 x 7 ^^^ rotr32 x 18 ^^^ (x >>> 3)

def smallSigma1 (x : Nat) : Nat := rotr32 x 17 ^^^ rotr32 x 19 ^^^ (x >>> 10)

/-- The 64 SHA-256 round constants (FIPS 180-4, in decimal). -/
def shaK : List Nat :=
  [1116352408, 1899447441, 3049323471, 3921009573, 961987163, 1508970993,
   2453635748, 2870763221, 3624381080, 310598401, 607225278, 1426881987,
   1925078388, 2162078206, 2614888103, 3248222580, 3835390401, 4022224774,
   264347078, 604807628, 770255983, 1249150122, 1555081692, 1996064986,
   2554220882, 2821834349, 2952996808, 3210313671, 3336571891, 3584528711,
   113926993, 338241895, 666307205, 773529912, 1294757372, 1396182291,
   1695183700, 1986661051, 2177026350, 2456956037, 2730485921, 2820302411,
   3259730800, 3345764771, 3516065817, 3600352804, 4094571909, 275423344,
   430227734, 506948616, 659060556, 883997877, 958139571, 1322822218,
   1537002063, 1747873779, 1955562222, 2024104815, 2227730452, 2361852424,
   2428436474, 2756734187, 3204031479, 3329325298]

/-- The SHA-256 initial hash value (FIPS 180-4, in decimal). -/
def shaH0 : List Nat :=
  [1779033703, 3144134277, 1013904242, 2773480762,
   1359893119, 2600822924, 528734635, 1541459225]

/-- Big-endian packing of bytes into 32-bit words. -/
def bytesToWords : List Nat → List Nat
  | b0 :: b1 :: b2 :: b3 :: rest =>
      (b0 * 16777216 + b1 * 65536 + b2 * 256 + b3) :: bytesToWords rest
  | _ => []

/-- Extend the message schedule by `n` further words. -/
def extendW : Nat → List Nat → List Nat
  | 0, w => w
  | n + 1, w =>
      let k := w.length
      let x := w32 (smallSigma1 (w.getD (k - 2) 0) + w.getD (k - 7) 0 +
                    smallSigma0 (w.getD (k - 15) 0) + w.getD (k - 16) 0)
      extendW n (w ++ [x])

/-- The 64-word message schedule of one 64-byte block. -/
def schedule (block : List Nat) : List Nat := extendW 48 (bytesToWords block)

/-- One SHA-256 round on the working state `[a,b,c,d,e,f,g,h]`. -/
def shaRound (st : List Nat) (kw : Nat × Nat) : List Nat :=
  match st with
  | [a, b, c, d, e, f, g, h] =>
      let t1 := w32 (h + bigSigma1 e + shaCh e f g + kw.1 + kw.2)
      let t2 := w32 (bigSigma0 a + shaMaj a b c)
      [w32 (t1 + t2), a, b, c, w32 (d + t1), e, f, g]
  | other => other

/-- SHA-256 compression of one block into the running hash. -/
def compress (h : List Nat) (block : List Nat) : List Nat :=
  let final := (shaK.zip (schedule block)).foldl shaRound h
  (h.zip final).map (fun p => w32 (p.1 + p.2))

/-- Split a byte list into 64-byte blocks (structural recursion on a fuel
bound; each step consumes at least one byte, so the list's length is enough
fuel). -/
def toBlocksAux : Nat → List Nat → List (List Nat)
  | 0, _ => []
  | _, [] => []
  | fuel + 1, b :: rest => (b :: rest.take 63) :: toBlocksAux fuel (rest.drop 63)

/-- Split a byte list into 64-byte blocks. -/
def toBlocks (l : List Nat) : List (List Nat) := toBlocksAux l.length l

/-- The message length in bits as 8 big-endian bytes. -/
def lenBytes8 (n : Nat) : List Nat :=
  [(n >>> 56) &&& 255, (n >>> 48) &&& 255, (n >>> 40) &&& 255, (n >>> 32) &&& 255,
   (n >>> 24) &&& 255, (n >>> 16) &&& 255, (n >>> 8) &&& 255, n &&& 255]

/-- SHA-256 padding: append `0x80`, zeros, and the 64-bit bit length. -/
def sha256Pad (msg : List Nat) : List Nat :=
  let zeros := (64 - (msg.length + 9) % 64) % 64
  msg ++ 128 :: (List.replicate zeros 0 ++ lenBytes8 (msg.length * 8))

/-- Big-endian bytes of a 32-bit word. -/
def wordBytes (w : Nat) : List Nat :=
  [(w >>> 24) &&& 255, (w >>> 16) &&& 255, (w >>> 8) &&& 255, w &&& 255]

/-- SHA-256 digest of a byte list. -/
def sha256 (msg : List Nat) : List Nat :=
  (((toBlocks (sha256Pad msg)).foldl compress shaH0).map wordBytes).flatten

/-- HMAC-SHA256 with the standard 64-byte block size, as `crypto/hmac`. -/
def hmacSha256 (key msg : List Nat) : List Nat :=
  let k0 := if 64 < key.length then sha256 key else key
  let k := k0 ++ List.replicate (64 - k0.length) 0
  let inner := sha256 ((k.map (fun b => b ^^^ 54)) ++ msg)
  sha256 ((k.map (fun b => b ^^^ 92)) ++ inner)

/-! ## Hex encoding (`encoding/hex`) -/

/-- The lowercase hex alphabet used by `encoding/hex`. -/
def hexTable : List Char := "0123456789abcdef".data

/-- One hex digit character. -/
def hexDigit (n : Nat) : Char := hexTable.getD (n % 16) '0'

/-- `hex.EncodeToString`: two lowercase hex characters per byte. -/
def hexEncode (bs : List Nat) : String :=
  ⟨(bs.map (fun b => [hexDigit (b >>> 4), hexDigit (b &&& 15)])).flatten⟩

/-! ## The signing package (src/unnamed/part_004) -/

/-- `Signer.Sign`: hex HMAC-SHA256 of the payload `fileID ++ ":" ++ expiresUnix`
(the payload Go builds with `fmt.Sprintf("%s:%d", fileID, expiresUnix)`). -/
def Sign (secret : List Nat) (fileID : String) (expiresUnix : Int) : String :=
  hexEncode (hmacSha256 secret (strBytes (fileID ++ ":" ++ toString expiresUnix)))

/-- Largest 64-bit signed integer. -/
def int64Max : Nat := 9223372036854775807

/-- Go's `strconv.ParseInt(s, 10, 64)`: optional sign, decimal digits only,
result within the signed 64-bit range; `none` on any syntax or range error. -/
def parseInt64 (s : String) : Option Int :=
  match s.data with
  | [] => none
  | c :: rest =>
      let neg := c = '-'
      let digits := if c = '-' ∨ c = '+' then rest else c :: rest
      if digits = [] then none
      else if digits.all Char.isDigit then
        let v := digits.foldl (fun acc d => acc * 10 + (d.toNat - 48)) 0
        if neg then
          if v ≤ int64Max + 1 then some (-(v : Int)) else none
        else
          if v ≤ int64Max then some (v : Int) else none
      else none

/-- `Signer.Validate`: parse the expiry, recompute the signature, and compare
the two byte strings (`hmac.Equal` is constant-time equality of `[]byte`).
Note the function performs no comparison of the expiry with the current
time; that check is done by the caller (`handleDownload`). -/
def Validate (secret : List Nat) (fileID expires signature : String) : Bool :=
  match parseInt64 expires with
  | none => false
  | some exp => strBytes (Sign secret fileID exp) == strBytes signature

/-! ## The repository package (src/unnamed/part_005)

One row of the `documents` table and the SQL the repository runs against it. -/

/-- The `document_status` lifecycle values. -/
inductive DocumentStatus where
  | queued
  | processing
  | completed
  | failed
deriving DecidableEq, Repr

/-- One row of the `documents` table.  Timestamps are abstract `Nat` clock
values; `processedKey` and `errorMessage` are nullable columns. -/
structure Document where
  id : String
  fileName : String
  objectKey : String
  processedKey : Option String
  status : DocumentStatus
  content : String
  errorMessage : Option String
  createdAt : Nat
  updatedAt : Nat
deriving DecidableEq, Repr

/-- SQL `COALESCE` of a bind parameter with the current column value. -/
def coalesce (new old : Option String) : Option String :=
  match new with
  | some v => some v
  | none => old

/-- `DocumentRepository.Create`: the INSERT writes status `queued`, empty
content, NULL error_message, both timestamps set to now, and (the column
being absent from the INSERT list) a NULL processed_key; any status carried
by the argument document is overwritten before the insert. -/
def createRow (doc : Document) (now : Nat) : Document :=
  { doc with
    status := .queued
    processedKey := none
    content := ""
    errorMessage := none
    createdAt := now
    updatedAt := now }

/-- `DocumentRepository.updateStatus`: the UPDATE applies to the row whose id
matches; `processed_key` and `content` keep their old value when the bind
parameter is NULL (COALESCE), `error_message` is written absolutely and
`updated_at` is refreshed. -/
def updateStatus (d : Document) (id : String) (status : DocumentStatus)
    (processedKey content errorMsg : Option String) (now : Nat) : Document :=
  if d.id = id then
    { d with
      status := status
      processedKey := coalesce processedKey d.processedKey
      content := content.getD d.content
      errorMessage := errorMsg
      updatedAt := now }
  else d

/-- `DocumentRepository.MarkProcessing`. -/
def markProcessing (d : Document) (id : String) (now : Nat) : Document :=
  updateStatus d id .processing none none none now

/-- `DocumentRepository.MarkFailed`. -/
def markFailed (d : Document) (id msg : String) (now : Nat) : Document :=
  updateStatus d id .failed none none (some msg) now

/-- `DocumentRepository.MarkCompleted`. -/
def markCompleted (d : Document) (id processedKey content : String) (now : Nat) : Document :=
  updateStatus d id .completed (some processedKey) (some content) none now

/-- A status-update call against one document's row (the `WHERE id` always
names that row, as the worker does for its job's document). -/
inductive RepoOp where
  | markProcessing (now : Nat)
  | markFailed (msg : String) (now : Nat)
  | markCompleted (processedKey content : String) (now : Nat)
deriving DecidableEq, Repr

/-- Apply one repository operation to the document's own row. -/
def applyOp (d : Document) : RepoOp → Document
  | .markProcessing now => markProcessing d d.id now
  | .markFailed msg now => markFailed d d.id msg now
  | .markCompleted pk c now => markCompleted d d.id pk c now

/-- Run a sequence of repository operations. -/
def runOps (d : Document) (ops : List RepoOp) : Document :=
  ops.foldl applyOp d

/-! ## The s3storage package (src/internal/database/database.go, second
document: `package s3storage`)

`Storage` wraps a MinIO client with a raw and a processed bucket.  A bucket is
modelled as an association list from object key to bytes.  The MinIO SDK calls
(`minio.PutObject`, `minio.GetObject` + `io.ReadAll`) are external library
primitives: `PutObject` is S3 overwrite-or-create under the key, and
`GetObject` of an absent key fails, so the read returns the stored bytes or
not-found. -/

/-- One bucket: keyed blobs. -/
abbrev ObjStore := List (String × List Nat)

/-- `minio.PutObject` (external SDK): overwrite-or-create under the key. -/
def putObject (s : ObjStore) (k : String) (v : List Nat) : ObjStore :=
  (k, v) :: s.filter (fun e => !(e.1 == k))

/-- `minio.GetObject` + `io.ReadAll` (external SDK): the stored bytes, or
not-found when the key is absent. -/
def getObject (s : ObjStore) (k : String) : Option (List Nat) :=
  List.lookup k s

/-- `Storage.UploadRaw`: `PutObject` of the upload into the raw bucket under
the object key. -/
def uploadRaw (raw : ObjStore) (objectKey : String) (data : List Nat) : ObjStore :=
  putObject raw objectKey data

/-- `Storage.UploadProcessed`: `PutObject` of the extracted text into the
processed bucket under the object key. -/
def uploadProcessed (processed : ObjStore) (objectKey : String) (data : List Nat) : ObjStore :=
  putObject processed objectKey data

/-- `Storage.DownloadRaw`: `GetObject` from the raw bucket plus `io.ReadAll`;
an absent key is the error case. -/
def downloadRaw (raw : ObjStore) (objectKey : String) : Option (List Nat) :=
  getObject raw objectKey

/-! ## The worker package (src/internal/worker/processor.go) -/

/-- The queue message payload `{document_id, object_key, file_name}`. -/
structure ExtractPayload where
  documentId : String
  objectKey : String
  fileName : String
deriving DecidableEq, Repr

/-- `filepath.Ext`: the suffix of the final path element starting at its last
dot, scanning from the end and stopping at a path separator. -/
def fileExtAux : List Char → List Char → List Char
  | [], _ => []
  | c :: rest, acc =>
      if c = '/' then []
      else if c = '.' then '.' :: acc
      else fileExtAux rest (c :: acc)

/-- `filepath.Ext` on a string. -/
def fileExt (p : String) : String := ⟨fileExtAux p.data.reverse []⟩

/-- `strings.TrimSuffix`: drop the suffix when present, else unchanged. -/
def trimSuffix (s suffix : String) : String :=
  if suffix.data.isSuffixOf s.data then
    ⟨s.data.take (s.data.length - suffix.data.length)⟩
  else s

/-- `processedObjectKey`: raw key with its extension replaced by `.txt`. -/
def processedObjectKey (objectKey : String) : String :=
  trimSuffix objectKey (fileExt objectKey) ++ ".txt"

/-- The state a worker run touches: the job's document row and the two
blob containers. -/
structure WorkerState where
  doc : Document
  rawStore : ObjStore
  processedStore : ObjStore
deriving DecidableEq, Repr

/-- Error text the model uses for a failed raw download (`DownloadRaw` wraps
the MinIO error as `"get raw object: %w"`; the exact text is irrelevant and
deterministic per key). -/
def downloadErrMsg (key : String) : String := "get raw object " ++ key

/-- `Processor.handleExtract`, after payload decode.  `pdfutil.ExtractText`
(internal/pdf/extractor.go) wraps the external `ledongthuc/pdf` reader, so the
extraction capability `extract` is a parameter — a deterministic function of
the raw bytes, exactly the assumption the claim states.  Returns the post
state and whether the handler returned an error to the queue runtime.
Infrastructure writes (repository updates, processed upload) are modelled as
succeeding; a missing raw object or an extraction error takes the `failure`
path, which marks the document failed and propagates the error. -/
def handleExtract (extract : List Nat → Except String String)
    (p : ExtractPayload) (now : Nat) (s : WorkerState) : WorkerState × Bool :=
  let d1 := markProcessing s.doc p.documentId now
  match downloadRaw s.rawStore p.objectKey with
  | none => ({ s with doc := markFailed d1 p.documentId (downloadErrMsg p.objectKey) now }, true)
  | some data =>
    match extract data with
    | .error e => ({ s with doc := markFailed d1 p.documentId e now }, true)
    | .ok text =>
        let pk := processedObjectKey p.objectKey
        ({ doc := markCompleted d1 p.documentId pk text now
           rawStore := s.rawStore
           processedStore := uploadProcessed s.processedStore pk (strBytes text) }, false)

/-- The observables of claim C3: terminal document status, processedKey,
content, and the bytes of the processed object under the job's key. -/
structure ExtractObs where
  status : DocumentStatus
  processedKey : Option String
  content : String
  processedObject : Option (List Nat)
deriving DecidableEq, Repr

/-- Observe a worker state through the job payload's keys. -/
def observeExtract (p : ExtractPayload) (s : WorkerState) : ExtractObs :=
  { status := s.doc.status
    processedKey := s.doc.processedKey
    content := s.doc.content
    processedObject := getObject s.processedStore (processedObjectKey p.objectKey) }

/-! ## The API package (src/internal/api/server.go)

The multipart part is modelled as the sequence of its `Read` results: a list
of chunks (each one read's bytes, possibly empty) followed by how the stream
ends (`EOF` or a read error).  `http.DetectContentType` is a Go standard
library function outside the repository and is passed as a parameter. -/

/-- How the part's byte stream ends after its data chunks. -/
inductive ReadEnd where
  | eof
  | fail (msg : String)
deriving DecidableEq, Repr

/-- The errors `persistTemp` can return. -/
inductive PersistErr where
  | oversize (limit : Nat)
  | readErr (msg : String)
  | empty
deriving DecidableEq, Repr

/-- The `tempUpload` value built on success. -/
structure TempUpload where
  bytes : List Nat
  size : Nat
  contentType : String
  filename : String
deriving DecidableEq, Repr

deriving instance DecidableEq for Except

/-- Result of the persist step: the outcome, the reads left unconsumed, and
the temp file still on disk (`none` once removed). -/
structure PersistResult where
  outcome : Except PersistErr TempUpload
  unread : List (List Nat)
  tempFile : Option (List Nat)
deriving DecidableEq, Repr

/-- The copy loop of `persistTemp`: per read, add the byte count, abort the
moment the configured maximum is exceeded (deleting the temp file and
reading no further), extend the sniff buffer up to 512 bytes, and append to
the temp file; a read error also aborts and deletes. -/
def persistLoop (max : Nat) : List (List Nat) → ReadEnd → Nat → List Nat → List Nat →
    (Except PersistErr (Nat × List Nat × List Nat)) × List (List Nat)
  | [], .eof, written, sniff, file => (.ok (written, sniff, file), [])
  | [], .fail m, _, _, _ => (.error (.readErr m), [])
  | c :: rest, e, written, sniff, file =>
      let w' := written + c.length
      if max < w' then (.error (.oversize max), rest)
      else
        let sniff' := if sniff.length < 512 then sniff ++ c.take (512 - sniff.length) else sniff
        persistLoop max rest e w' sniff' (file ++ c)

/-- `Server.persistTemp`: run the copy loop, reject an empty stream, sniff the
content type from the first bytes, and default the filename.  On any error
the temp file has been removed. -/
def persistTemp (max : Nat) (detect : List Nat → String)
    (chunks : List (List Nat)) (e : ReadEnd) (partFileName : String) : PersistResult :=
  match persistLoop max chunks e 0 [] [] with
  | (.error er, rem) => { outcome := .error er, unread := rem, tempFile := none }
  | (.ok (written, sniff, file), rem) =>
      if written = 0 then { outcome := .error .empty, unread := rem, tempFile := none }
      else
        { outcome := .ok
            { bytes := file
              size := written
              contentType := detect sniff
              filename := if partFileName = "" then "upload.pdf" else partFileName }
          unread := rem
          tempFile := some file }

/-- The client-facing 400 message for each persist error, following the Go
error strings (`"file exceeds limit (%d bytes)"`, `"read file: %v"`,
`"empty file"`). -/
def persistErrText : PersistErr → String
  | .oversize limit => "file exceeds limit (" ++ toString limit ++ " bytes)"
  | .readErr m => "read file: " ++ m
  | .empty => "empty file"

/-- `filepath.Base` (unix): strip trailing slashes, keep the last element;
`"."` for the empty path, `"/"` when the path is all slashes. -/
def baseName (p : String) : String :=
  if p = "" then "."
  else
    let cs := p.data.reverse.dropWhile (fun c => c = '/')
    if cs = [] then "/"
    else ⟨(cs.takeWhile (fun c => c ≠ '/')).reverse⟩

/-- The externally visible world the upload handler mutates: the raw bucket
(`Storage.UploadRaw`'s target), the `documents` table, and the job queue. -/
structure World where
  objects : ObjStore
  rows : List (String × Document)
  jobs : List ExtractPayload
deriving DecidableEq, Repr

/-- One attempted side effect of the upload handler, in order of attempt. -/
inductive Attempt where
  | storePut (key : String)
  | rowInsert (id : String)
  | enqueue (p : ExtractPayload)
deriving DecidableEq, Repr

/-- The HTTP responses `handleUpload` can produce. -/
inductive UploadResponse where
  | badRequest (msg : String)
  | serverError (msg : String)
  | accepted (id status : String)
deriving DecidableEq, Repr

/-- One upload request: whether a multipart reader and a `file` part could be
obtained, the part's reads and ending, its client filename, and the document
id `uuid.NewString()` yields for this request. -/
structure UploadRequest where
  multipartOk : Bool
  partOk : Bool
  chunks : List (List Nat)
  readEnd : ReadEnd
  partFileName : String
  docID : String
deriving Repr

/-- Success/failure of the three external operations (object store put,
repository INSERT, queue enqueue) for this request; infrastructure errors
are free oracles. -/
structure Oracles where
  uploadOk : Bool
  createOk : Bool
  enqueueOk : Bool
deriving DecidableEq, Repr

/-- A `Document` literal as `handleUpload` builds it (`&repository.Document{ID,
FileName, ObjectKey}`); every other field is the Go zero value, the status
zero value being the empty status modelled as `queued`-irrelevant because
`Create` overwrites it. -/
def newDocRecord (id fileName objectKey : String) : Document :=
  { id := id, fileName := fileName, objectKey := objectKey,
    processedKey := none, status := .queued, content := "",
    errorMessage := none, createdAt := 0, updatedAt := 0 }

/-- The object key `handleUpload` derives for a request:
`fmt.Sprintf("uploads/%s/%s", docID, filepath.Base(tmp.filename))`. -/
def uploadObjectKey (docID fileName : String) : String :=
  "uploads/" ++ docID ++ "/" ++ baseName fileName

/-- The extraction job payload `handleUpload` enqueues. -/
def uploadPayload (docID fileName : String) : ExtractPayload :=
  { documentId := docID, objectKey := uploadObjectKey docID fileName, fileName := fileName }

/-- `Server.handleUpload`: multipart checks, `persistTemp`, the PDF-only
content-type gate, then in order `Storage.UploadRaw`, repository `Create`
(which fails on a duplicate id), and job enqueue — each attempted only when
everything before it succeeded.  Returns the new world, the trace of
attempted side effects, and the HTTP response. -/
def handleUpload (maxFileSize : Nat) (detect : List Nat → String)
    (req : UploadRequest) (ora : Oracles) (w : World) (now : Nat) :
    World × List Attempt × UploadResponse :=
  if !req.multipartOk then (w, [], .badRequest "expecting multipart form")
  else if !req.partOk then (w, [], .badRequest "no file part")
  else
    match (persistTemp maxFileSize detect req.chunks req.readEnd req.partFileName).outcome with
    | .error er => (w, [], .badRequest (persistErrText er))
    | .ok tmp =>
        if tmp.contentType ≠ "application/pdf" then
          (w, [], .badRequest "only PDF files supported")
        else
          if !ora.uploadOk then
            (w, [.storePut (uploadObjectKey req.docID tmp.filename)],
             .serverError "failed to store file")
          else
            if !ora.createOk || (List.lookup req.docID w.rows).isSome then
              ({ w with objects := (uploadRaw w.objects (uploadObjectKey req.docID tmp.filename) tmp.bytes) },
               [.storePut (uploadObjectKey req.docID tmp.filename), .rowInsert req.docID],
               .serverError "failed to store metadata")
            else
              if !ora.enqueueOk then
                ({ w with
                    objects := (uploadRaw w.objects (uploadObjectKey req.docID tmp.filename) tmp.bytes),
                    rows := ((req.docID, createRow (newDocRecord req.docID tmp.filename (uploadObjectKey req.docID tmp.filename)) now) :: w.rows) },
                 [.storePut (uploadObjectKey req.docID tmp.filename), .rowInsert req.docID,
                  .enqueue (uploadPayload req.docID tmp.filename)],
                 .serverError "failed to queue job")
              else
                ({ w with
                    objects := (uploadRaw w.objects (uploadObjectKey req.docID tmp.filename) tmp.bytes),
                    rows := ((req.docID, createRow (newDocRecord req.docID tmp.filename (uploadObjectKey req.docID tmp.filename)) now) :: w.rows),
                    jobs := (w.jobs ++ [uploadPayload req.docID tmp.filename]) },
                 [.storePut (uploadObjectKey req.docID tmp.filename), .rowInsert req.docID,
                  .enqueue (uploadPayload req.docID tmp.filename)],
                 .accepted req.docID "queued")

/-- `DocumentRepository.Get` over the table: the row for the id, or not-found. -/
def repoGet (rows : List (String × Document)) (id : String) : Option Document :=
  List.lookup id rows

/-! ## Helper lemmas about the signing embedding -/

lemma char_eq_of_toNat_eq {a b : Char} (h : a.toNat = b.toNat) : a = b :=
  Char.ext (UInt32.ext h)

lemma utf8Char_ascii {c : Char} (h : c.toNat < 128) : utf8Char c = [c.toNat] := by
  simp [utf8Char, h]

lemma utf8Char_ne_nil (c : Char) : utf8Char c ≠ [] := by
  unfold utf8Char
  dsimp only
  split_ifs <;> simp

lemma utf8Char_head_big {c : Char} (h : ¬ c.toNat < 128) :
    ∃ b rest, utf8Char c = b :: rest ∧ 128 ≤ b := by
  unfold utf8Char
  dsimp only
  split_ifs with h1 h2
  · exact ⟨_, _, rfl, by omega⟩
  · exact ⟨_, _, rfl, by omega⟩
  · exact ⟨_, _, rfl, by omega⟩

lemma utf8Flatten_inj (a : List Char) : ∀ (b : List Char), (∀ c ∈ a, c.toNat < 128) →
    (a.map utf8Char).flatten = (b.map utf8Char).flatten → a = b := by
  induction a with
  | nil =>
      intro b _ h
      cases b with
      | nil => rfl
      | cons d ds =>
          exfalso
          simp only [List.map_nil, List.flatten_nil, List.map_cons, List.flatten_cons] at h
          rcases List.append_eq_nil.mp h.symm with ⟨hnil, _⟩
          exact utf8Char_ne_nil d hnil
  | cons c cs ih =>
      intro b hascii h
      have hc : c.toNat < 128 := hascii c (by simp)
      cases b with
      | nil =>
          exfalso
          simp only [List.map_cons, List.flatten_cons, List.map_nil, List.flatten_nil] at h
          rcases List.append_eq_nil.mp h with ⟨hnil, _⟩
          exact utf8Char_ne_nil c hnil
      | cons d ds =>
          simp only [List.map_cons, List.flatten_cons] at h
          rw [utf8Char_ascii hc] at h
          by_cases hd : d.toNat < 128
          · rw [utf8Char_ascii hd] at h
            simp only [List.cons_append, List.nil_append, List.cons.injEq] at h
            obtain ⟨h1, h2⟩ := h
            have hcd : c = d := char_eq_of_toNat_eq h1
            have hcs : cs = ds := ih ds (fun x hx => hascii x (by simp [hx])) h2
            rw [hcd, hcs]
          · obtain ⟨b0, rest, hbr, hb⟩ := utf8Char_head_big hd
            rw [hbr] at h
            simp only [List.cons_append, List.nil_append, List.cons.injEq] at h
            omega

lemma ascii_str_inj {a b : String} (ha : ∀ c ∈ a.data, c.toNat < 128)
    (h : strBytes a = strBytes b) : a = b := by
  have hd : a.data = b.data := utf8Flatten_inj a.data b.data ha h
  cases a; cases b; exact congrArg String.mk hd

lemma getD_ascii (l : List Char) (hl : ∀ c ∈ l, c.toNat < 128) (d : Char)
    (hd : d.toNat < 128) : ∀ n, (l.getD n d).toNat < 128 := by
  induction l with
  | nil => intro n; simpa [List.getD] using hd
  | cons x xs ih =>
      intro n
      cases n with
      | zero => simpa [List.getD] using hl x (by simp)
      | succ m =>
          simpa [List.getD] using ih (fun c hc => hl c (by simp [hc])) m

lemma hexDigit_ascii (n : Nat) : (hexDigit n).toNat < 128 :=
  getD_ascii hexTable (by decide) '0' (by decide) (n % 16)

lemma hexEncode_ascii (bs : List Nat) : ∀ c ∈ (hexEncode bs).data, c.toNat < 128 := by
  intro c hc
  unfold hexEncode at hc
  simp only [List.mem_flatten, List.mem_map] at hc
  obtain ⟨l, ⟨b, _, hbl⟩, hcl⟩ := hc
  rw [← hbl] at hcl
  simp only [List.mem_cons, List.not_mem_nil, or_false] at hcl
  rcases hcl with h | h <;> (rw [h]; exact hexDigit_ascii _)

lemma sign_ascii (secret : List Nat) (f : String) (e : Int) :
    ∀ c ∈ (Sign secret f e).data, c.toNat < 128 := by
  intro c hc
  unfold Sign at hc
  exact hexEncode_ascii _ c hc

lemma shaRound_length (st : List Nat) (kw : Nat × Nat) :
    (shaRound st kw).length = st.length := by
  unfold shaRound
  split <;> simp

lemma foldl_shaRound_length (l : List (Nat × Nat)) (st : List Nat) :
    (l.foldl shaRound st).length = st.length := by
  induction l generalizing st with
  | nil => rfl
  | cons x xs ih => simp [List.foldl_cons, ih, shaRound_length]

lemma compress_length (h : List Nat) (b : List Nat) :
    (compress h b).length = h.length := by
  unfold compress
  simp [List.length_zip, foldl_shaRound_length]

lemma foldl_compress_length (bs : List (List Nat)) (h : List Nat) :
    (bs.foldl compress h).length = h.length := by
  induction bs generalizing h with
  | nil => rfl
  | cons x xs ih => simp [List.foldl_cons, ih, compress_length]

lemma map_wordBytes_flatten_length (l : List Nat) :
    ((l.map wordBytes).flatten).length = 4 * l.length := by
  induction l with
  | nil => rfl
  | cons x xs ih => simp [wordBytes, ih]; omega

lemma sha256_length (msg : List Nat) : (sha256 msg).length = 32 := by
  unfold sha256
  rw [map_wordBytes_flatten_length, foldl_compress_length]
  rfl

lemma hmacSha256_length (k m : List Nat) : (hmacSha256 k m).length = 32 := by
  unfold hmacSha256
  exact sha256_length _

lemma hexEncode_data_length (bs : List Nat) : (hexEncode bs).data.length = 2 * bs.length := by
  unfold hexEncode
  induction bs with
  | nil => rfl
  | cons x xs ih => simp only [List.map_cons, List.flatten_cons] at ih ⊢; simp at ih ⊢; omega

lemma sign_data_length (secret : List Nat) (f : String) (e : Int) :
    (Sign secret f e).data.length = 64 := by
  unfold Sign
  rw [hexEncode_data_length, hmacSha256_length]

lemma validate_true_of_parse {secret : List Nat} {fileID expires : String} {exp : Int}
    (hp : parseInt64 expires = some exp) :
    Validate secret fileID expires (Sign secret fileID exp) = true := by
  unfold Validate
  rw [hp]
  exact beq_self_eq_true _

lemma validate_false_of_parse_fail {secret : List Nat} {fileID expires signature : String}
    (hp : parseInt64 expires = none) :
    Validate secret fileID expires signature = false := by
  unfold Validate
  rw [hp]

lemma validate_false_of_sign_ne {secret : List Nat} {fileID expires signature : String}
    {exp : Int} (hp : parseInt64 expires = some exp)
    (hne : Sign secret fileID exp ≠ signature) :
    Validate secret fileID expires signature = false := by
  have hb : strBytes (Sign secret fileID exp) ≠ strBytes signature :=
    fun hb => hne (ascii_str_inj (sign_ascii secret fileID exp) hb)
  unfold Validate
  rw [hp]
  exact beq_eq_false_iff_ne.mpr hb

/-! ## Helper definitions and lemmas: repository operation sequences -/

/-- Is this operation a `markCompleted`? -/
def RepoOp.isCompleted : RepoOp → Bool
  | .markCompleted _ _ _ => true
  | _ => false

/-- No `markProcessing` or `markFailed` occurs after a `markCompleted`: once
a `markCompleted` appears, only further `markCompleted`s follow. -/
def completedIsTerminal : List RepoOp → Bool
  | [] => true
  | .markCompleted _ _ _ :: rest => rest.all RepoOp.isCompleted
  | _ :: rest => completedIsTerminal rest

lemma runOps_status_all_completed (ops : List RepoOp) :
    ∀ d : Document, ops.all RepoOp.isCompleted = true → d.status = .completed →
    (runOps d ops).status = .completed := by
  induction ops with
  | nil => intro d _ h; exact h
  | cons op rest ih =>
      intro d hall hd
      simp only [List.all_cons, Bool.and_eq_true] at hall
      cases op with
      | markCompleted pk c now =>
          have : runOps d (RepoOp.markCompleted pk c now :: rest) =
              runOps (applyOp d (RepoOp.markCompleted pk c now)) rest := rfl
          rw [this]
          apply ih _ hall.2
          simp [applyOp, markCompleted, updateStatus]
      | markProcessing now => simp [RepoOp.isCompleted] at hall
      | markFailed m now => simp [RepoOp.isCompleted] at hall

lemma runOps_inv_aux (ops : List RepoOp) :
    ∀ d : Document, d.processedKey = none → d.content = "" →
    completedIsTerminal ops = true →
    ((runOps d ops).processedKey.isSome → (runOps d ops).content ≠ "" →
      (runOps d ops).status = .completed) := by
  induction ops with
  | nil =>
      intro d hpk _ _ hsome _
      simp only [runOps, List.foldl_nil] at hsome ⊢
      rw [hpk] at hsome
      cases hsome
  | cons op rest ih =>
      intro d hpk hc hterm
      cases op with
      | markProcessing now =>
          have hstep : runOps d (RepoOp.markProcessing now :: rest) =
              runOps (applyOp d (RepoOp.markProcessing now)) rest := rfl
          rw [hstep]
          exact ih _ (by simp [applyOp, markProcessing, updateStatus, coalesce, hpk])
            (by simp [applyOp, markProcessing, updateStatus, hc]) hterm
      | markFailed m now =>
          have hstep : runOps d (RepoOp.markFailed m now :: rest) =
              runOps (applyOp d (RepoOp.markFailed m now)) rest := rfl
          rw [hstep]
          exact ih _ (by simp [applyOp, markFailed, updateStatus, coalesce, hpk])
            (by simp [applyOp, markFailed, updateStatus, hc]) hterm
      | markCompleted pk c now =>
          intro _ _
          have hstep : runOps d (RepoOp.markCompleted pk c now :: rest) =
              runOps (applyOp d (RepoOp.markCompleted pk c now)) rest := rfl
          rw [hstep]
          exact runOps_status_all_completed rest _ hterm
            (by simp [applyOp, markCompleted, updateStatus])

/-! ## Claim theorems: signing (C1, C8) -/

/-- C1 (counterexample): with secret "topsecret", resource id "file123" and
expiry 0 — a unix timestamp in the past of every positive clock value —
`Validate` accepts the correctly signed triple.  The code performs no
`now < expiry` comparison (that check lives in the download handler), so the
claim's clause "returns false for an expired timestamp (now ≥ expiry) even
when the signature is correct" is false of `Validate`. -/
theorem C1_counterexample :
    Validate (strBytes "topsecret") "file123" "0"
      (Sign (strBytes "topsecret") "file123" 0) = true :=
  validate_true_of_parse (by decide)

/-- C1 (amended): `Validate(id, expiry, Sign(id, expiry))` returns true
whenever the expiry string parses as a 64-bit integer, regardless of the
current time — `Validate` itself performs no expiry-vs-now check (the
download handler does, before calling `Validate`); `Validate` returns false
for any supplied signature that differs from the signature recomputed over
the (possibly mutated) id and expiry; and it returns false whenever the
expiry string does not parse. -/
theorem C1_amended (secret : List Nat) (fileID expires signature : String) :
    (∀ exp : Int, parseInt64 expires = some exp →
      Validate secret fileID expires (Sign secret fileID exp) = true ∧
      (Sign secret fileID exp ≠ signature →
        Validate secret fileID expires signature = false)) ∧
    (parseInt64 expires = none →
      Validate secret fileID expires signature = false) :=
  ⟨fun _ hparse =>
      ⟨validate_true_of_parse hparse, fun hne => validate_false_of_sign_ne hparse hne⟩,
   fun hparse => validate_false_of_parse_fail hparse⟩

/-- C1 (witness): the amended claim at secret "topsecret", id "file123": a
correctly signed parseable expiry 1700000000 validates, the mutated
signature "x" is rejected, and the unparseable expiry "20x5" is rejected. -/
theorem C1_witness :
    Validate (strBytes "topsecret") "file123" "1700000000"
      (Sign (strBytes "topsecret") "file123" 1700000000) = true ∧
    Validate (strBytes "topsecret") "file123" "1700000000" "x" = false ∧
    Validate (strBytes "topsecret") "file123" "20x5" "sig" = false := by
  have h1 := (C1_amended (strBytes "topsecret") "file123" "1700000000" "x").1
    1700000000 (by decide)
  have h2 := (C1_amended (strBytes "topsecret") "file123" "20x5" "sig").2 (by decide)
  refine ⟨h1.1, h1.2 ?_, h2⟩
  intro he
  have hlen := sign_data_length (strBytes "topsecret") "file123" 1700000000
  rw [he] at hlen
  simp at hlen

/-- C8: `Validate` is total — modelled as a total Lean function into `Bool`,
it returns a boolean on every input and cannot throw; an expiry string that
does not parse as a base-10 signed 64-bit integer yields `false`, and a
parseable expiry whose recomputed signature differs from the supplied
signature string yields `false`. -/
theorem C8_validate_total (secret : List Nat) (fileID expires signature : String) :
    (Validate secret fileID expires signature = true ∨
     Validate secret fileID expires signature = false) ∧
    (parseInt64 expires = none → Validate secret fileID expires signature = false) ∧
    (∀ exp : Int, parseInt64 expires = some exp → Sign secret fileID exp ≠ signature →
      Validate secret fileID expires signature = false) :=
  ⟨Bool.eq_false_or_eq_true _,
   fun hp => validate_false_of_parse_fail hp,
   fun _ hp hne => validate_false_of_sign_ne hp hne⟩

/-- C8 (witness): an unparseable expiry "17e0" and a parseable expiry "42"
with a wrong signature "zz" both make `Validate` return false. -/
theorem C8_witness :
    Validate (strBytes "topsecret") "file123" "17e0" "whatever" = false ∧
    Validate (strBytes "topsecret") "file123" "42" "zz" = false := by
  refine ⟨(C8_validate_total (strBytes "topsecret") "file123" "17e0" "whatever").2.1 (by decide),
    (C8_validate_total (strBytes "topsecret") "file123" "42" "zz").2.2 42 (by decide) ?_⟩
  intro he
  have hlen := sign_data_length (strBytes "topsecret") "file123" 42
  rw [he] at hlen
  simp at hlen

/-! ## Claim theorems: repository (C2, C10) -/

/-- C2 (counterexample): the state reached by Create; MarkCompleted;
MarkProcessing has its processedKey set and non-empty content (both kept by
the COALESCE in `updateStatus`) while its status is `processing`, not
`completed` — so the invariant does not hold for every reachable state. -/
theorem C2_counterexample :
    ((runOps (createRow (newDocRecord "doc1" "f.pdf" "uploads/doc1/f.pdf") 0)
        [RepoOp.markCompleted "uploads/doc1/f.txt" "hello" 1,
         RepoOp.markProcessing 2]).processedKey.isSome = true) ∧
    ((runOps (createRow (newDocRecord "doc1" "f.pdf" "uploads/doc1/f.pdf") 0)
        [RepoOp.markCompleted "uploads/doc1/f.txt" "hello" 1,
         RepoOp.markProcessing 2]).content ≠ "") ∧
    ((runOps (createRow (newDocRecord "doc1" "f.pdf" "uploads/doc1/f.pdf") 0)
        [RepoOp.markCompleted "uploads/doc1/f.txt" "hello" 1,
         RepoOp.markProcessing 2]).status ≠ DocumentStatus.completed) := by
  decide

/-- C2 (amended): for every document state reachable from `Create` by a
sequence of MarkProcessing / MarkFailed / MarkCompleted in which no
MarkProcessing or MarkFailed occurs after a MarkCompleted, a set
processedKey together with non-empty content implies status `completed`. -/
theorem C2_amended (docIn : Document) (now : Nat) (ops : List RepoOp)
    (hterm : completedIsTerminal ops = true) :
    (runOps (createRow docIn now) ops).processedKey.isSome →
    (runOps (createRow docIn now) ops).content ≠ "" →
    (runOps (createRow docIn now) ops).status = .completed :=
  runOps_inv_aux ops (createRow docIn now) (by simp [createRow]) (by simp [createRow]) hterm

/-- C2 (witness): the amended claim at the concrete sequence
Create; MarkProcessing; MarkCompleted. -/
theorem C2_witness :
    (runOps (createRow (newDocRecord "d1" "f.pdf" "uploads/d1/f.pdf") 0)
      [RepoOp.markProcessing 1, RepoOp.markCompleted "uploads/d1/f.txt" "text" 2]).status =
      DocumentStatus.completed :=
  C2_amended (newDocRecord "d1" "f.pdf" "uploads/d1/f.pdf") 0
    [RepoOp.markProcessing 1, RepoOp.markCompleted "uploads/d1/f.txt" "text" 2]
    (by decide) (by decide) (by decide)

/-- C10: MarkProcessing and MarkCompleted both write `error_message`
unconditionally with a nil value, clearing any failure reason recorded by a
prior MarkFailed; and every field not named in the call is unchanged — id,
fileName, objectKey and createdAt always, and for MarkProcessing also
processedKey and content, which the COALESCE keeps when the parameters are
nil. -/
theorem C10_error_message_cleared (d : Document) (pk c : String) (now : Nat) :
    (markProcessing d d.id now).errorMessage = none ∧
    (markCompleted d d.id pk c now).errorMessage = none ∧
    (markProcessing d d.id now).id = d.id ∧
    (markProcessing d d.id now).fileName = d.fileName ∧
    (markProcessing d d.id now).objectKey = d.objectKey ∧
    (markProcessing d d.id now).createdAt = d.createdAt ∧
    (markProcessing d d.id now).processedKey = d.processedKey ∧
    (markProcessing d d.id now).content = d.content ∧
    (markCompleted d d.id pk c now).id = d.id ∧
    (markCompleted d d.id pk c now).fileName = d.fileName ∧
    (markCompleted d d.id pk c now).objectKey = d.objectKey ∧
    (markCompleted d d.id pk c now).createdAt = d.createdAt := by
  simp [markProcessing, markCompleted, updateStatus, coalesce]

/-! ## Claim theorem: worker idempotency (C3) -/

lemma getObject_putObject_self (s : ObjStore) (k : String) (v : List Nat) :
    getObject (putObject s k v) k = some v := by
  simp [getObject, putObject, List.lookup]

lemma repoGet_cons_self (rows : List (String × Document)) (id : String) (d : Document) :
    repoGet ((id, d) :: rows) id = some d := by
  simp [repoGet, List.lookup]

/-- C3: running `handleExtract` twice in sequence for the same job payload,
with the extraction capability a deterministic function of the stored raw
bytes, leaves the document row with the same terminal status, processedKey
and content, and the processed object under the same key with the same
bytes, as the single run (the timestamps of the two runs are arbitrary;
they do not affect these observables). -/
theorem C3_idempotent (extract : List Nat → Except String String)
    (p : ExtractPayload) (n1 n2 : Nat) (s : WorkerState) :
    observeExtract p (handleExtract extract p n2 (handleExtract extract p n1 s).1).1 =
      observeExtract p (handleExtract extract p n1 s).1 := by
  cases hraw : List.lookup p.objectKey s.rawStore with
  | none =>
      by_cases hid : s.doc.id = p.documentId <;>
        simp [handleExtract, observeExtract, downloadRaw, getObject, hraw, markFailed, markProcessing,
          updateStatus, coalesce, hid]
  | some data =>
      cases hex : extract data with
      | error e =>
          by_cases hid : s.doc.id = p.documentId <;>
            simp [handleExtract, observeExtract, downloadRaw, getObject, hraw, hex, markFailed, markProcessing,
              updateStatus, coalesce, hid]
      | ok text =>
          by_cases hid : s.doc.id = p.documentId <;>
            simp [handleExtract, observeExtract, downloadRaw, getObject, hraw, hex, markCompleted,
              markProcessing, updateStatus, coalesce, hid, uploadProcessed, putObject,
              List.lookup, List.filter_filter]

/-! ## Helper lemmas: the persist loop -/

/-- Total byte count of a list of reads. -/
def sumLen (chunks : List (List Nat)) : Nat := (chunks.map List.length).sum

lemma sumLen_nil : sumLen [] = 0 := rfl

lemma sumLen_cons (c : List Nat) (rest : List (List Nat)) :
    sumLen (c :: rest) = c.length + sumLen rest := by simp [sumLen]

lemma sumLen_eq_length_flatten (chunks : List (List Nat)) :
    sumLen chunks = chunks.flatten.length := by
  simp [sumLen, List.length_flatten]

lemma persistLoop_oversize (max : Nat) (chunks : List (List Nat)) :
    ∀ (e : ReadEnd) (written : Nat) (sniff file : List Nat),
    written ≤ max → max < written + sumLen chunks →
    ∃ i, i < chunks.length ∧
      written + sumLen (chunks.take i) ≤ max ∧
      max < written + sumLen (chunks.take (i + 1)) ∧
      persistLoop max chunks e written sniff file =
        (.error (.oversize max), chunks.drop (i + 1)) := by
  induction chunks with
  | nil =>
      intro e written sniff file hw hover
      rw [sumLen_nil] at hover
      omega
  | cons c rest ih =>
      intro e written sniff file hw hover
      by_cases hc : max < written + c.length
      · refine ⟨0, by simp, ?_, ?_, ?_⟩
        · simpa [sumLen_nil] using hw
        · simpa [List.take_succ_cons, sumLen_cons, sumLen_nil] using hc
        · simp [persistLoop, hc]
      · have hw' : written + c.length ≤ max := by omega
        have hover' : max < (written + c.length) + sumLen rest := by
          rw [sumLen_cons] at hover
          omega
        obtain ⟨i, hilen, hle, hgt, heq⟩ :=
          ih e (written + c.length)
            (if sniff.length < 512 then sniff ++ c.take (512 - sniff.length) else sniff)
            (file ++ c) hw' hover'
        refine ⟨i + 1, by simpa using Nat.succ_lt_succ hilen, ?_, ?_, ?_⟩
        · rw [List.take_succ_cons, sumLen_cons]
          omega
        · rw [List.take_succ_cons, sumLen_cons]
          omega
        · rw [List.drop_succ_cons]
          calc persistLoop max (c :: rest) e written sniff file
              = persistLoop max rest e (written + c.length)
                  (if sniff.length < 512 then sniff ++ c.take (512 - sniff.length) else sniff)
                  (file ++ c) := by simp [persistLoop, hc]
            _ = (.error (.oversize max), rest.drop (i + 1)) := heq

lemma sniff_extend_take (f0 c : List Nat) :
    (if (f0.take 512).length < 512 then
        f0.take 512 ++ c.take (512 - (f0.take 512).length)
      else f0.take 512) = (f0 ++ c).take 512 := by
  rw [List.take_append_eq_append_take]
  by_cases hlen : f0.length < 512
  · rw [List.take_of_length_le (by omega)]
    simp [hlen]
  · have h1 : (f0.take 512).length = 512 := by
      rw [List.length_take]
      omega
    have h2 : 512 - f0.length = 0 := by omega
    simp [h1, h2]

lemma persistLoop_ok (max : Nat) (chunks : List (List Nat)) :
    ∀ (e : ReadEnd) (f0 : List Nat) (n : Nat) (s f : List Nat) (rem : List (List Nat)),
    persistLoop max chunks e f0.length (f0.take 512) f0 = (.ok (n, s, f), rem) →
    f = f0 ++ chunks.flatten ∧ s = f.take 512 ∧ n = f.length ∧ rem = [] ∧ e = .eof := by
  induction chunks with
  | nil =>
      intro e f0 n s f rem h
      cases e with
      | eof =>
          simp only [persistLoop, Prod.mk.injEq, Except.ok.injEq] at h
          obtain ⟨⟨h1, h2, h3⟩, h4⟩ := h
          subst h3
          exact ⟨by simp, h2.symm, h1.symm, h4.symm, rfl⟩
      | fail m => simp [persistLoop] at h
  | cons c rest ih =>
      intro e f0 n s f rem h
      by_cases hc : max < f0.length + c.length
      · simp [persistLoop, hc] at h
      · have hstep : persistLoop max (c :: rest) e f0.length (f0.take 512) f0 =
            persistLoop max rest e (f0 ++ c).length ((f0 ++ c).take 512) (f0 ++ c) := by
          have harg : f0.length + c.length = (f0 ++ c).length := (List.length_append f0 c).symm
          simp only [persistLoop, hc, if_false]
          rw [sniff_extend_take, harg]
        rw [hstep] at h
        obtain ⟨hf, hs, hn, hrem, he⟩ := ih e (f0 ++ c) n s f rem h
        refine ⟨?_, hs, hn, hrem, he⟩
        rw [hf, List.flatten_cons, List.append_assoc]

lemma persistTemp_ok (max : Nat) (detect : List Nat → String) (chunks : List (List Nat))
    (e : ReadEnd) (name : String) (tmp : TempUpload)
    (h : (persistTemp max detect chunks e name).outcome = .ok tmp) :
    tmp.bytes = chunks.flatten ∧ tmp.size = chunks.flatten.length ∧
    tmp.contentType = detect (chunks.flatten.take 512) ∧ chunks.flatten ≠ [] := by
  unfold persistTemp at h
  rcases hloop : persistLoop max chunks e 0 [] [] with ⟨res, rem⟩
  rw [hloop] at h
  cases res with
  | error er => simp at h
  | ok triple =>
      rcases triple with ⟨n, s, f⟩
      dsimp only at h
      have hloop0 : persistLoop max chunks e (List.length ([] : List Nat))
          (List.take 512 ([] : List Nat)) [] = (.ok (n, s, f), rem) := by
        simpa using hloop
      obtain ⟨hf, hs, hn, _, _⟩ := persistLoop_ok max chunks e [] n s f rem hloop0
      simp only [List.nil_append] at hf
      by_cases hzero : n = 0
      · rw [if_pos hzero] at h
        simp at h
      · rw [if_neg hzero] at h
        simp only [Except.ok.injEq] at h
        subst h
        refine ⟨hf, ?_, ?_, ?_⟩
        · simpa [hf] using hn
        · rw [hs, hf]
        · intro hnil
          rw [hn, hf, hnil] at hzero
          simp at hzero

/-! ## Claim theorems: upload intake (C5, C6, C9) -/

/-- C5: a multipart stream whose cumulative byte count exceeds the configured
maximum is aborted at the first read that crosses the limit — the reads
after that one are never consumed — the temp file is discarded, the handler
responds with the oversize client error (HTTP 400), and the world is
unchanged: no stored object, no repository row, no enqueued job. -/
theorem C5_oversize_abort (max : Nat) (detect : List Nat → String) (req : UploadRequest)
    (ora : Oracles) (w : World) (now : Nat)
    (hmp : req.multipartOk = true) (hpart : req.partOk = true)
    (hover : max < sumLen req.chunks) :
    ∃ i, i < req.chunks.length ∧
      sumLen (req.chunks.take i) ≤ max ∧
      max < sumLen (req.chunks.take (i + 1)) ∧
      persistTemp max detect req.chunks req.readEnd req.partFileName =
        { outcome := .error (.oversize max), unread := req.chunks.drop (i + 1),
          tempFile := none } ∧
      handleUpload max detect req ora w now =
        (w, [], .badRequest (persistErrText (.oversize max))) := by
  obtain ⟨i, hilen, hle, hgt, heq⟩ := persistLoop_oversize max req.chunks req.readEnd 0 [] []
    (Nat.zero_le _) (by simpa using hover)
  simp only [Nat.zero_add] at hle hgt
  have htemp : persistTemp max detect req.chunks req.readEnd req.partFileName =
      { outcome := .error (.oversize max), unread := req.chunks.drop (i + 1),
        tempFile := none } := by
    unfold persistTemp
    rw [heq]
  refine ⟨i, hilen, hle, hgt, htemp, ?_⟩
  unfold handleUpload
  rw [htemp]
  simp [hmp, hpart]

/-- C5 (witness): with limit 2 and a single 3-byte read, the handler aborts
at that read, consumes nothing further, and leaves the world unchanged. -/
theorem C5_witness :
    ∃ i, i < 1 ∧
      sumLen (List.take i [[1, 2, 3]]) ≤ 2 ∧
      2 < sumLen (List.take (i + 1) [[1, 2, 3]]) ∧
      persistTemp 2 (fun _ => "application/pdf") [[1, 2, 3]] .eof "f.pdf" =
        { outcome := .error (.oversize 2), unread := List.drop (i + 1) [[1, 2, 3]],
          tempFile := none } ∧
      handleUpload 2 (fun _ => "application/pdf")
          { multipartOk := true, partOk := true, chunks := [[1, 2, 3]], readEnd := .eof,
            partFileName := "f.pdf", docID := "id1" }
          { uploadOk := true, createOk := true, enqueueOk := true }
          { objects := [], rows := [], jobs := [] } 0 =
        ({ objects := [], rows := [], jobs := [] }, [],
          .badRequest (persistErrText (.oversize 2))) :=
  C5_oversize_abort 2 (fun _ => "application/pdf")
    { multipartOk := true, partOk := true, chunks := [[1, 2, 3]], readEnd := .eof,
      partFileName := "f.pdf", docID := "id1" }
    { uploadOk := true, createOk := true, enqueueOk := true }
    { objects := [], rows := [], jobs := [] } 0 rfl rfl (by decide)

/-- C6: when the content type sniffed from the first up-to-512 bytes of the
stream is not the allowed PDF media type, or the stream is empty, the upload
handler responds with a 4xx client error and performs no object-store
upload, no row creation and no job enqueue (the world is returned unchanged
and the attempt trace is empty). -/
theorem C6_content_type_gate (max : Nat) (detect : List Nat → String) (req : UploadRequest)
    (ora : Oracles) (w : World) (now : Nat)
    (hmp : req.multipartOk = true) (hpart : req.partOk = true)
    (hbad : detect (req.chunks.flatten.take 512) ≠ "application/pdf" ∨
      req.chunks.flatten = []) :
    ∃ msg, handleUpload max detect req ora w now = (w, [], .badRequest msg) := by
  unfold handleUpload
  simp only [hmp, hpart, Bool.not_true, Bool.false_eq_true, if_false]
  rcases houtcome : (persistTemp max detect req.chunks req.readEnd req.partFileName).outcome with
    er | tmp
  · exact ⟨persistErrText er, rfl⟩
  · obtain ⟨hb, hs, hct, hne⟩ :=
      persistTemp_ok max detect req.chunks req.readEnd req.partFileName tmp houtcome
    rcases hbad with hbad | hbad
    · have hctne : tmp.contentType ≠ "application/pdf" := by rw [hct]; exact hbad
      exact ⟨"only PDF files supported", by simp [hctne]⟩
    · exact absurd hbad hne

/-- C6 (witness): a one-byte stream sniffed as text/plain is rejected with a
400 and the world is unchanged. -/
theorem C6_witness :
    ∃ msg, handleUpload 100 (fun _ => "text/plain; charset=utf-8")
        { multipartOk := true, partOk := true, chunks := [[104, 105]], readEnd := .eof,
          partFileName := "f.txt", docID := "id1" }
        { uploadOk := true, createOk := true, enqueueOk := true }
        { objects := [], rows := [], jobs := [] } 0 =
      ({ objects := [], rows := [], jobs := [] }, [], .badRequest msg) :=
  C6_content_type_gate 100 (fun _ => "text/plain; charset=utf-8")
    { multipartOk := true, partOk := true, chunks := [[104, 105]], readEnd := .eof,
      partFileName := "f.txt", docID := "id1" }
    { uploadOk := true, createOk := true, enqueueOk := true }
    { objects := [], rows := [], jobs := [] } 0 rfl rfl (.inl (by decide))

/-- C9: whenever `persistTemp` succeeds, the buffer it passed to content-type
detection is exactly the first `min 512 (total length)` bytes of the stream
(`List.take 512` of the concatenation of all reads) — a value that depends
only on the stream's bytes, not on how they were split across `Read` calls;
moreover the temp file holds exactly the full stream and the counted size is
its length. -/
theorem C9_sniff_window (max : Nat) (detect : List Nat → String)
    (chunks : List (List Nat)) (e : ReadEnd) (name : String) (tmp : TempUpload)
    (h : (persistTemp max detect chunks e name).outcome = .ok tmp) :
    tmp.contentType = detect (chunks.flatten.take 512) ∧
    tmp.bytes = chunks.flatten ∧ tmp.size = chunks.flatten.length := by
  obtain ⟨hb, hs, hct, _⟩ := persistTemp_ok max detect chunks e name tmp h
  exact ⟨hct, hb, hs⟩

/-- C9 (witness): the stream 1,2,3 split as [1] then [2,3]: detection is
applied to exactly [1,2,3] (its length, 3, is the sniffed "type" here). -/
theorem C9_witness :
    ({ bytes := [1, 2, 3], size := 3, contentType := "3", filename := "a.pdf" } :
        TempUpload).contentType =
      (fun bs : List Nat => toString bs.length) ((List.flatten [[1], [2, 3]]).take 512) ∧
    ({ bytes := [1, 2, 3], size := 3, contentType := "3", filename := "a.pdf" } :
        TempUpload).bytes = List.flatten [[1], [2, 3]] ∧
    ({ bytes := [1, 2, 3], size := 3, contentType := "3", filename := "a.pdf" } :
        TempUpload).size = (List.flatten [[1], [2, 3]]).length :=
  C9_sniff_window 100 (fun bs : List Nat => toString bs.length) [[1], [2, 3]] .eof "a.pdf"
    { bytes := [1, 2, 3], size := 3, contentType := "3", filename := "a.pdf" } (by decide)

/-! ## Claim theorems: upload side-effect ordering (C4) and acceptance (C7) -/

lemma handleUpload_trace_shape (max : Nat) (detect : List Nat → String)
    (req : UploadRequest) (ora : Oracles) (w : World) (now : Nat) :
    (handleUpload max detect req ora w now).2.1 = [] ∨
    (∃ k, (handleUpload max detect req ora w now).2.1 = [Attempt.storePut k]) ∨
    (∃ k, (handleUpload max detect req ora w now).2.1 =
       [Attempt.storePut k, Attempt.rowInsert req.docID]) ∨
    (∃ k p, (handleUpload max detect req ora w now).2.1 =
       [Attempt.storePut k, Attempt.rowInsert req.docID, Attempt.enqueue p]) := by
  unfold handleUpload
  repeat' split
  all_goals first
    | exact Or.inl rfl
    | exact Or.inr (Or.inl ⟨_, rfl⟩)
    | exact Or.inr (Or.inr (Or.inl ⟨_, rfl⟩))
    | exact Or.inr (Or.inr (Or.inr ⟨_, _, rfl⟩))

lemma handleUpload_rowInsert_after_put (max : Nat) (detect : List Nat → String)
    (req : UploadRequest) (ora : Oracles) (w : World) (now : Nat) :
    ∀ i, Attempt.rowInsert i ∈ (handleUpload max detect req ora w now).2.1 →
      ∃ k, Attempt.storePut k ∈ (handleUpload max detect req ora w now).2.1 ∧
        (getObject (handleUpload max detect req ora w now).1.objects k).isSome = true := by
  unfold handleUpload
  repeat' split
  all_goals intro i hi
  all_goals (simp at hi <;>
    (refine ⟨_, List.mem_cons_self _ _, ?_⟩
     simp [uploadRaw, getObject_putObject_self]))

lemma handleUpload_enqueue_after_row (max : Nat) (detect : List Nat → String)
    (req : UploadRequest) (ora : Oracles) (w : World) (now : Nat) :
    ∀ p, Attempt.enqueue p ∈ (handleUpload max detect req ora w now).2.1 →
      (getObject (handleUpload max detect req ora w now).1.objects p.objectKey).isSome = true ∧
      (repoGet (handleUpload max detect req ora w now).1.rows p.documentId).isSome = true := by
  unfold handleUpload
  repeat' split
  all_goals intro p hp
  all_goals simp at hp
  all_goals subst hp
  all_goals exact ⟨by simp [uploadPayload, uploadRaw, getObject_putObject_self],
    by simp [uploadPayload, repoGet, List.lookup]⟩

lemma handleUpload_jobs_valid (max : Nat) (detect : List Nat → String)
    (req : UploadRequest) (ora : Oracles) (w : World) (now : Nat) :
    ∀ p, p ∈ (handleUpload max detect req ora w now).1.jobs →
      p ∈ w.jobs ∨
      ((getObject (handleUpload max detect req ora w now).1.objects p.objectKey).isSome = true ∧
       (repoGet (handleUpload max detect req ora w now).1.rows p.documentId).isSome = true) := by
  unfold handleUpload
  repeat' split
  all_goals intro p hp
  all_goals first
    | exact Or.inl hp
    | (simp only [List.mem_append, List.mem_singleton] at hp
       rcases hp with hp | hp
       · exact Or.inl hp
       · subst hp
         exact Or.inr ⟨by simp [uploadPayload, uploadRaw, getObject_putObject_self],
           by simp [uploadPayload, repoGet, List.lookup]⟩)

/-- C4: in every execution of the upload handler the attempted side effects
form an initial segment of [object put, row insert, job enqueue] — a later
step is attempted only when every earlier one succeeded: whenever the row
insert is attempted the object put succeeded and the object is stored, and
whenever the enqueue is attempted both the object and the row exist; and
every job present after the handler is either pre-existing or references an
object key and a document id that exist in the resulting world. -/
theorem C4_effect_ordering (max : Nat) (detect : List Nat → String) (req : UploadRequest)
    (ora : Oracles) (w : World) (now : Nat) :
    ((handleUpload max detect req ora w now).2.1 = [] ∨
     (∃ k, (handleUpload max detect req ora w now).2.1 = [Attempt.storePut k]) ∨
     (∃ k, (handleUpload max detect req ora w now).2.1 =
        [Attempt.storePut k, Attempt.rowInsert req.docID]) ∨
     (∃ k p, (handleUpload max detect req ora w now).2.1 =
        [Attempt.storePut k, Attempt.rowInsert req.docID, Attempt.enqueue p])) ∧
    (∀ i, Attempt.rowInsert i ∈ (handleUpload max detect req ora w now).2.1 →
      ∃ k, Attempt.storePut k ∈ (handleUpload max detect req ora w now).2.1 ∧
        (getObject (handleUpload max detect req ora w now).1.objects k).isSome = true) ∧
    (∀ p, Attempt.enqueue p ∈ (handleUpload max detect req ora w now).2.1 →
      (getObject (handleUpload max detect req ora w now).1.objects p.objectKey).isSome = true ∧
      (repoGet (handleUpload max detect req ora w now).1.rows p.documentId).isSome = true) ∧
    (∀ p, p ∈ (handleUpload max detect req ora w now).1.jobs →
      p ∈ w.jobs ∨
      ((getObject (handleUpload max detect req ora w now).1.objects p.objectKey).isSome = true ∧
       (repoGet (handleUpload max detect req ora w now).1.rows p.documentId).isSome = true)) :=
  ⟨handleUpload_trace_shape max detect req ora w now,
   handleUpload_rowInsert_after_put max detect req ora w now,
   handleUpload_enqueue_after_row max detect req ora w now,
   handleUpload_jobs_valid max detect req ora w now⟩

/-- C7: whenever the upload handler responds 202 accepted, the reported
status is "queued", the reported id is the request's fresh document id, the
row just created for that id is stored with status `queued` — `Create`
overwrites whatever status the input document carried — and an immediately
following repository `Get` for that id returns that queued row. -/
theorem C7_accepted_queued (max : Nat) (detect : List Nat → String) (req : UploadRequest)
    (ora : Oracles) (w : World) (now : Nat) (id st : String)
    (hacc : (handleUpload max detect req ora w now).2.2 = .accepted id st) :
    st = "queued" ∧ id = req.docID ∧
    (∃ row, repoGet (handleUpload max detect req ora w now).1.rows id = some row ∧
      row.status = .queued) ∧
    (∀ (docIn : Document) (n : Nat), (createRow docIn n).status = .queued) := by
  revert hacc
  unfold handleUpload
  repeat' split
  all_goals intro hacc
  all_goals (simp at hacc <;>
    (obtain ⟨hid, hst⟩ := hacc
     subst hid
     subst hst
     exact ⟨rfl, rfl,
       ⟨_, repoGet_cons_self _ _ _, by simp [createRow]⟩,
       fun docIn n => by simp [createRow]⟩))

/-- C4 (witness): a fully successful upload of a 3-byte PDF stream; the
enqueued payload references an object key and a document id that exist in
the resulting world. -/
theorem C4_witness :
    (getObject (handleUpload 100 (fun _ => "application/pdf")
        { multipartOk := true, partOk := true, chunks := [[1, 2, 3]], readEnd := .eof,
          partFileName := "f.pdf", docID := "id1" }
        { uploadOk := true, createOk := true, enqueueOk := true }
        { objects := [], rows := [], jobs := [] } 0).1.objects
      (uploadPayload "id1" "f.pdf").objectKey).isSome = true ∧
    (repoGet (handleUpload 100 (fun _ => "application/pdf")
        { multipartOk := true, partOk := true, chunks := [[1, 2, 3]], readEnd := .eof,
          partFileName := "f.pdf", docID := "id1" }
        { uploadOk := true, createOk := true, enqueueOk := true }
        { objects := [], rows := [], jobs := [] } 0).1.rows
      (uploadPayload "id1" "f.pdf").documentId).isSome = true :=
  (C4_effect_ordering 100 (fun _ => "application/pdf")
    { multipartOk := true, partOk := true, chunks := [[1, 2, 3]], readEnd := .eof,
      partFileName := "f.pdf", docID := "id1" }
    { uploadOk := true, createOk := true, enqueueOk := true }
    { objects := [], rows := [], jobs := [] } 0).2.2.1
    (uploadPayload "id1" "f.pdf") (by decide)

/-- C7 (witness): the same successful upload responds accepted with status
"queued" and an immediate `Get` of the new row returns status `queued`. -/
theorem C7_witness :
    ("queued" : String) = "queued" ∧ ("id1" : String) = "id1" ∧
    (∃ row, repoGet (handleUpload 100 (fun _ => "application/pdf")
        { multipartOk := true, partOk := true, chunks := [[1, 2, 3]], readEnd := .eof,
          partFileName := "f.pdf", docID := "id1" }
        { uploadOk := true, createOk := true, enqueueOk := true }
        { objects := [], rows := [], jobs := [] } 0).1.rows "id1" = some row ∧
      row.status = .queued) ∧
    (∀ (docIn : Document) (n : Nat), (createRow docIn n).status = .queued) :=
  C7_accepted_queued 100 (fun _ => "application/pdf")
    { multipartOk := true, partOk := true, chunks := [[1, 2, 3]], readEnd := .eof,
      partFileName := "f.pdf", docID := "id1" }
    { uploadOk := true, createOk := true, enqueueOk := true }
    { objects := [], rows := [], jobs := [] } 0 "id1" "queued" (by decide)

end VaultDrop
